import Mathlib

/-!
Shallow embedding of the image2ascii rendering core (src/main.rs): the
glyph palette quantization, the aspect resizer, the frame renderer, the
stream playback loop and the predicate/effect event registry.

Machine integers are modelled as `Nat` with an explicit `% 2 ^ 32` where
`u32` overflow or wraparound matters (release-mode wrapping semantics);
fallible code returns `Except`/`Option`.  Terminal writes are modelled as
the list of queued tokens (text plus optional foreground color); cursor
positioning and the final flush carry no text and are not modelled.
-/

/-- One RGB pixel: three 8-bit channels, modelled as naturals (callers
supply values below 256, mirroring `u8`). -/
abbrev Pixel := Nat × Nat × Nat

/-- `image::ImageBuffer<Rgb<u8>, Vec<u8>>`: a width × height row-major
pixel grid (top-left origin). -/
structure Bitmap where
  width : Nat
  height : Nat
  pixels : List Pixel
deriving DecidableEq

/-- Terminal geometry as reported by `crossterm::terminal::size()`:
columns and rows, each a `u16`. -/
structure Geom where
  cols : Nat
  rows : Nat
deriving DecidableEq

/-- The command-line options consumed by the rendering core
(src/main.rs:54-82), minus the input path and webcam flag which only
select the frame source. -/
structure Args where
  colored : Bool
  resize : Bool
  animation_delay : Nat
  loop_animation : Bool
  block_character : Bool
deriving DecidableEq

/-- Failures of the rendering core.  `terminalTooSmall` is the
`TERMINAL_TOO_SMALL_ERR` context attached to a failed `checked_div`
(src/main.rs:89,119,123); `runtimeFault` marks a Rust runtime panic
(an out-of-bounds index or a division by zero). -/
inductive RErr where
  | terminalTooSmall
  | runtimeFault
deriving DecidableEq

/-- `HEAT_MAP_LENGTH` (src/main.rs:84). -/
def HEAT_MAP_LENGTH : Nat := 16

/-- `HEAT_MAP` (src/main.rs:90-107): the sixteen three-character glyphs,
sparsest to densest. -/
def HEAT_MAP : List String :=
  ["   ", "...", "´´´", ":::", "~~~", "+++", "iii", "xxx",
   "!!!", "III", "###", "$$$", "XXX", "▄▄▄", "■■■", "███"]

/-- `2 ^ 32`, the modulus of `u32` arithmetic. -/
def U32SIZE : Nat := 4294967296

/-- Modelled from the spec: `DynamicImage::resize` of the external `image`
crate (a dependency, not part of this repository).  Per the spec the
resized bitmap has exactly the requested dimensions and is resampled with
the nearest-neighbor filter. -/
def resizeFit (img : Bitmap) (nw nh : Nat) : Bitmap :=
  { width := nw
    height := nh
    pixels := (List.range (nw * nh)).map (fun k =>
      (img.pixels.get? ((k / nw * img.height / nh) * img.width +
        (k % nw) * img.width / nw)).getD (0, 0, 0)) }

/-- `resize_img` (src/main.rs:109-137).  The canvas is
`(cols / 3, rows - 3)` with the subtraction performed on `u32`, hence
wrapping modulo `2 ^ 32` when `rows < 3` (release semantics; debug builds
panic there).  `checked_div` of the image height by each canvas dimension
yields `TerminalTooSmall` when the divisor is zero — the width ratio is
checked first.  The scaling multiplication wraps on `u32`; the final
division in the width-constrained branch panics (`runtimeFault`) when the
image width is zero. -/
def resize_img (img : Bitmap) (g : Geom) : Except RErr Bitmap :=
  let c0 := g.cols / 3
  let c1 := (g.rows + (U32SIZE - 3)) % U32SIZE
  if c0 = 0 then .error .terminalTooSmall
  else if c1 = 0 then .error .terminalTooSmall
  else
    let wr := img.height / c0
    let hr := img.height / c1
    if wr < hr then
      .ok (resizeFit img (c1 * img.width % U32SIZE / img.height) c1)
    else if img.width = 0 then .error .runtimeFault
    else .ok (resizeFit img c0 (c0 * img.height % U32SIZE / img.width))

/-- The per-pixel quantized value of src/main.rs:154:
`(((r + g + b) / 3) / (256 / HEAT_MAP_LENGTH)) as u8`, computed in `u32`
and cast to `u8` (hence the `% 256`). -/
def pixelValue (r g b : Nat) : Nat :=
  ((r + g + b) / 3 / (256 / HEAT_MAP_LENGTH)) % 256

/-- One entry of `pixels_with_value`: the pixel's channels and its
quantized value. -/
structure PV where
  r : Nat
  g : Nat
  b : Nat
  v : Nat
deriving DecidableEq

/-- `pixels_with_value` (src/main.rs:146-159). -/
def pixelsWithValue (img : Bitmap) : List PV :=
  img.pixels.map (fun p => ⟨p.1, p.2.1, p.2.2, pixelValue p.1 p.2.1 p.2.2⟩)

/-- One token queued to the terminal: its text and, when colorized, the
RGB foreground color attached via `PrintStyledContent`. -/
structure Cell where
  text : String
  color : Option Pixel
deriving DecidableEq

/-- The block-character glyph of src/main.rs:164. -/
def blockGlyph : String := "███"

/-- The newline queued after each row (src/main.rs:181). -/
def newlineCell : Cell := { text := "\n", color := none }

/-- The token queued for one pixel (src/main.rs:163-179): the glyph is the
solid block in block-character mode, otherwise `HEAT_MAP[p.v]` (`none`
models the out-of-bounds indexing panic); with `colored` the pixel's own
RGB is attached as foreground color. -/
def mkCell (args : Args) (p : PV) : Option Cell :=
  (if args.block_character then some blockGlyph else HEAT_MAP.get? p.v).map
    (fun t => { text := t, color := if args.colored then some (p.r, p.g, p.b) else none })

/-- Sequences fallible per-element computations in order; `none` as soon
as any element fails, as a Rust indexing panic aborts the loop. -/
def optSeq (f : α → Option β) : List α → Option (List β)
  | [] => some []
  | a :: t =>
    match f a, optSeq f t with
    | some b, some bs => some (b :: bs)
    | _, _ => none

/-- The double loop of src/main.rs:160-182: for each row `i < height` the
cells of `pixels_with_value[i*width + j]` for `j < width`, then a newline
cell; `none` models an out-of-bounds indexing panic. -/
def renderCells (img : Bitmap) (args : Args) : Option (List Cell) :=
  let pv := pixelsWithValue img
  (optSeq (fun i =>
      (optSeq (fun j => (pv.get? (i * img.width + j)).bind (mkCell args))
          (List.range img.width)).map (fun row => row ++ [newlineCell]))
    (List.range img.height)).map List.flatten

/-- The quantize-and-emit part of `print_img`, on an already-resized
bitmap: the queued cells, or `runtimeFault` for the (unreachable)
out-of-bounds panic. -/
def printCells (img : Bitmap) (args : Args) : Except RErr (List Cell) :=
  match renderCells img args with
  | some cs => .ok cs
  | none => .error .runtimeFault

/-- src/main.rs:143 — the bitmap actually rendered: resized only when the
`resize` option is set, otherwise the input itself. -/
def effectiveImg (img : Bitmap) (args : Args) (g : Geom) : Except RErr Bitmap :=
  if args.resize then resize_img img g else .ok img

/-- `print_img` (src/main.rs:139-185): optional resize, then the queued
cells of every pixel in row-major order.  The `MoveTo(0,0)` and the final
flush are terminal side effects carrying no text. -/
def print_img (img : Bitmap) (args : Args) (g : Geom) : Except RErr (List Cell) :=
  match effectiveImg img args g with
  | .error e => .error e
  | .ok im => printCells im args

/-- Outcome of `print_stream`: `ok rendered sleeps` counts the fully
rendered frames and the sleeps performed; `aborted` models the `.unwrap()`
panic on the first failing `print_img` (src/main.rs:208), recording the
render error and the counts up to that point. -/
inductive StreamOutcome where
  | ok (rendered sleeps : Nat)
  | aborted (e : RErr) (rendered sleeps : Nat)
deriving DecidableEq

/-- The `for_each` body of src/main.rs:207-211: render the frame, run the
event manager, sleep — the sleep follows every successfully rendered
frame, the last one included. -/
def streamLoop (args : Args) (g : Geom) : List Bitmap → Nat → Nat → StreamOutcome
  | [], r, s => .ok r s
  | f :: fs, r, s =>
    match print_img f args g with
    | .error e => .aborted e r s
    | .ok _ => streamLoop args g fs (r + 1) (s + 1)

/-- `print_stream` (src/main.rs:187-213) over a finite frame list. -/
def print_stream (frames : List Bitmap) (args : Args) (g : Geom) : StreamOutcome :=
  streamLoop args g frames 0 0

/-- The number of sleeps an outcome performed. -/
def sleepCount : StreamOutcome → Nat
  | .ok _ s => s
  | .aborted _ _ s => s

/-- `EventManager` (src/main.rs:22-49): an ordered list of (stateful
predicate, effect) pairs.  An `FnMut` predicate is a state transformer
`σ → Bool × σ` over its captured state; the opaque `Fn()` effects are
values of `α`, observed through the list of invocations `run` produces. -/
structure EventManager (σ α : Type) where
  events : List ((σ → Bool × σ) × α)

/-- `EventManager::append` (src/main.rs:27-34): pushes the pair at the end,
so entries are kept in registration order. -/
def EventManager.append {σ α : Type} (em : EventManager σ α)
    (test : σ → Bool × σ) (callback : α) : EventManager σ α :=
  ⟨em.events ++ [(test, callback)]⟩

/-- The loop of `EventManager::run` (src/main.rs:36-42): each predicate is
evaluated in order (threading its state), and its callback is invoked
exactly when it returned true. -/
def emRun {σ α : Type} : List ((σ → Bool × σ) × α) → σ → σ × List α
  | [], s => (s, [])
  | e :: es, s =>
    let p := e.1 s
    let rest := emRun es p.2
    (rest.1, if p.1 then e.2 :: rest.2 else rest.2)

/-- `EventManager::run` on the manager's entries. -/
def EventManager.run {σ α : Type} (em : EventManager σ α) (s : σ) : σ × List α :=
  emRun em.events s

/-- Specification-side observation: the sequence of predicate results
alone, in registration order, threading each predicate's state update to
the next. -/
def emTests {σ α : Type} : List ((σ → Bool × σ) × α) → σ → List Bool
  | [], _ => []
  | e :: es, s => (e.1 s).1 :: emTests es (e.1 s).2

/-- Whether an `Except` value is a success. -/
def isOkB {ε β : Type} : Except ε β → Bool
  | .ok _ => true
  | .error _ => false

/-- Whether a resize result is the `TerminalTooSmall` error. -/
def isTTS : Except RErr Bitmap → Bool
  | .error .terminalTooSmall => true
  | _ => false

/-- Width of a successful resize result (0 on error). -/
def resultWidth : Except RErr Bitmap → Nat
  | .ok b => b.width
  | .error _ => 0

/-- Height of a successful resize result (0 on error). -/
def resultHeight : Except RErr Bitmap → Nat
  | .ok b => b.height
  | .error _ => 0

/-- The plain text of a render result: the queued texts concatenated. -/
def outText : Except RErr (List Cell) → String
  | .ok cs => String.join (cs.map Cell.text)
  | .error _ => ""

/-- Options with every flag off (plain monochrome rendering). -/
def argsPlain : Args := ⟨false, false, 200, false, false⟩

/-- Options with only the resize flag on. -/
def argsResize : Args := ⟨false, true, 200, false, false⟩

/-- Options with colorized block-character mode on. -/
def argsBlockColor : Args := ⟨true, false, 200, false, true⟩

/-- A 3×1 all-white bitmap. -/
def white3x1 : Bitmap := ⟨3, 1, [(255, 255, 255), (255, 255, 255), (255, 255, 255)]⟩

/-- A 3×1 all-black bitmap. -/
def black3x1 : Bitmap := ⟨3, 1, [(0, 0, 0), (0, 0, 0), (0, 0, 0)]⟩

/-- A 4×4 all-black bitmap. -/
def bmp4x4 : Bitmap := ⟨4, 4, List.replicate 16 (0, 0, 0)⟩

/-- A 17×10 all-black bitmap. -/
def bmp17x10 : Bitmap := ⟨17, 10, List.replicate 170 (0, 0, 0)⟩

/-- A 1×1 bitmap. -/
def bmp1x1 : Bitmap := ⟨1, 1, [(7, 8, 9)]⟩

/-- The cells the 3×1 all-white bitmap renders to in plain mode. -/
def whiteCells : List Cell :=
  [⟨blockGlyph, none⟩, ⟨blockGlyph, none⟩, ⟨blockGlyph, none⟩, ⟨"\n", none⟩]

/-- C1: for 8-bit channels the renderer's quantized glyph index equals
`((r + g + b) / 3) / 16` (integer division) and is a valid index into the
16-entry `HEAT_MAP` palette. -/
theorem glyph_index_formula_valid (r g b : Nat)
    (hr : r ≤ 255) (hg : g ≤ 255) (hb : b ≤ 255) :
    pixelValue r g b = (r + g + b) / 3 / 16 ∧ pixelValue r g b < HEAT_MAP.length := by
  have hv : pixelValue r g b = (r + g + b) / 3 / 16 := by
    have h0 : pixelValue r g b = (r + g + b) / 3 / 16 % 256 := rfl
    rw [h0, Nat.mod_eq_of_lt (by omega)]
  have hL : HEAT_MAP.length = 16 := rfl
  exact ⟨hv, by rw [hv, hL]; omega⟩

/-- Witness for C1 at the all-`200` pixel. -/
theorem glyph_index_formula_valid_witness :
    (200 ≤ 255 ∧ 200 ≤ 255 ∧ 200 ≤ 255) ∧
      pixelValue 200 200 200 = (200 + 200 + 200) / 3 / 16 ∧
      pixelValue 200 200 200 < HEAT_MAP.length :=
  ⟨by decide, glyph_index_formula_valid 200 200 200 (by decide) (by decide) (by decide)⟩

/-- C7: in block-character mode every pixel's emitted glyph is the solid
block, whatever its quantized value, and the carried color is still the
pixel's own RGB exactly when colorize is on. -/
theorem block_mode_glyph_and_color (args : Args) (p : PV)
    (hb : args.block_character = true) :
    mkCell args p =
      some { text := blockGlyph,
             color := if args.colored then some (p.r, p.g, p.b) else none } := by
  simp [mkCell, hb]

/-- Witness for C7: colorized block mode on a pixel whose value field is
out of palette range still yields the solid block with the pixel's RGB. -/
theorem block_mode_glyph_and_color_witness :
    argsBlockColor.block_character = true ∧
      mkCell argsBlockColor ⟨10, 20, 30, 99⟩ =
        some { text := blockGlyph,
               color := if argsBlockColor.colored then some (10, 20, 30) else none } :=
  ⟨rfl, block_mode_glyph_and_color argsBlockColor ⟨10, 20, 30, 99⟩ rfl⟩

/-- C8: with the resize option off the bitmap passes through unchanged —
the bitmap whose pixels are quantized and emitted is the input itself, and
the whole render equals quantizing the input directly. -/
theorem no_resize_passthrough (img : Bitmap) (args : Args) (g : Geom)
    (h : args.resize = false) :
    effectiveImg img args g = .ok img ∧ print_img img args g = printCells img args := by
  constructor
  · simp [effectiveImg, h]
  · simp [print_img, effectiveImg, h]

/-- Witness for C8 on the 3×1 white bitmap with plain options. -/
theorem no_resize_passthrough_witness :
    argsPlain.resize = false ∧
      effectiveImg white3x1 argsPlain ⟨80, 24⟩ = .ok white3x1 ∧
      print_img white3x1 argsPlain ⟨80, 24⟩ = printCells white3x1 argsPlain :=
  ⟨rfl, no_resize_passthrough white3x1 argsPlain ⟨80, 24⟩ rfl⟩

lemma emRun_eq_filter {σ α : Type} (l : List ((σ → Bool × σ) × α)) (s : σ) :
    (emRun l s).2 =
      ((l.zip (emTests l s)).filter (fun p => p.2)).map (fun p => p.1.2) := by
  induction l generalizing s with
  | nil => rfl
  | cons e es ih =>
    show (if (e.1 s).1 then e.2 :: (emRun es (e.1 s).2).2 else (emRun es (e.1 s).2).2) = _
    cases hb : (e.1 s).1 with
    | false => simp [emTests, hb, ih]
    | true => simp [emTests, hb, ih]

/-- C9: one `run` invocation fires exactly the callbacks of the entries
whose predicate evaluated true, in registration order, each exactly once
and none when the predicate returned false, threading each stateful
predicate's update to the next. -/
theorem event_manager_run_fires_in_order {σ α : Type} (em : EventManager σ α) (s : σ) :
    (em.run s).2 =
      ((em.events.zip (emTests em.events s)).filter (fun p => p.2)).map (fun p => p.1.2) :=
  emRun_eq_filter em.events s

/-- C2: at terminal geometry (9, 2) — rows ≤ 3 — `resize_img` does not
return `TerminalTooSmall`: the `rows - 3` subtraction wraps on `u32`, the
canvas height becomes 4294967295, and the resize of a 4×4 bitmap succeeds
with a 3×3 result. -/
theorem resize_row_underflow_no_error :
    isTTS (resize_img bmp4x4 ⟨9, 2⟩) = false ∧
      resultWidth (resize_img bmp4x4 ⟨9, 2⟩) = 3 ∧
      resultHeight (resize_img bmp4x4 ⟨9, 2⟩) = 3 := by
  refine ⟨rfl, rfl, rfl⟩

/-- C3 counterexample: a 17×10 bitmap on a (12, 6) terminal resizes
successfully to width 5, exceeding `cols / 3 = 4` — both ratios divide the
source height, so the branch comparison misclassifies wide images. -/
theorem resize_width_bound_violated :
    isOkB (resize_img bmp17x10 ⟨12, 6⟩) = true ∧
      resultWidth (resize_img bmp17x10 ⟨12, 6⟩) = 5 ∧
      ¬ resultWidth (resize_img bmp17x10 ⟨12, 6⟩) ≤ 12 / 3 := by
  refine ⟨rfl, rfl, by decide⟩

/-- C3 amended: whenever `resize_img` succeeds and the `u32` scaling
products do not wrap, the result either has height exactly the canvas
height `(rows - 3) mod 2^32` with width scaled proportionally as
`canvasHeight * srcWidth / srcHeight`, or width exactly `cols / 3` with
height `(cols / 3) * srcHeight / srcWidth`; the proportionally scaled
dimension may exceed the complementary canvas bound. -/
theorem resize_dims_characterization (img : Bitmap) (g : Geom) (b : Bitmap)
    (hm1 : (g.rows + (U32SIZE - 3)) % U32SIZE * img.width < U32SIZE)
    (hm2 : g.cols / 3 * img.height < U32SIZE)
    (hok : resize_img img g = .ok b) :
    (b.height = (g.rows + (U32SIZE - 3)) % U32SIZE ∧
      b.width = (g.rows + (U32SIZE - 3)) % U32SIZE * img.width / img.height) ∨
    (b.width = g.cols / 3 ∧
      b.height = g.cols / 3 * img.height / img.width) := by
  unfold resize_img at hok
  by_cases h0 : g.cols / 3 = 0
  · simp [h0] at hok
  by_cases h1 : (g.rows + (U32SIZE - 3)) % U32SIZE = 0
  · simp [h0, h1] at hok
  by_cases h2 : img.height / (g.cols / 3) < img.height / ((g.rows + (U32SIZE - 3)) % U32SIZE)
  · simp only [h0, h1, h2, if_neg, if_pos, if_true, if_false] at hok
    left
    injection hok with hok
    subst hok
    exact ⟨rfl, by simp [resizeFit, Nat.mod_eq_of_lt hm1]⟩
  · by_cases h3 : img.width = 0
    · simp [h0, h1, h2, h3] at hok
    · simp only [h0, h1, h2, h3, if_neg, if_pos, if_true, if_false] at hok
      right
      injection hok with hok
      subst hok
      exact ⟨rfl, by simp [resizeFit, Nat.mod_eq_of_lt hm2]⟩

/-- Witness for the amended C3 at the 17×10 bitmap on a (12, 6) terminal:
the resize succeeds with height 3 (the canvas height) and width
`3 * 17 / 10 = 5`. -/
theorem resize_dims_characterization_witness :
    ((6 + (U32SIZE - 3)) % U32SIZE * bmp17x10.width < U32SIZE ∧
      12 / 3 * bmp17x10.height < U32SIZE ∧
      resize_img bmp17x10 ⟨12, 6⟩ = .ok (resizeFit bmp17x10 5 3)) ∧
    (((resizeFit bmp17x10 5 3).height = (6 + (U32SIZE - 3)) % U32SIZE ∧
        (resizeFit bmp17x10 5 3).width =
          (6 + (U32SIZE - 3)) % U32SIZE * bmp17x10.width / bmp17x10.height) ∨
      ((resizeFit bmp17x10 5 3).width = 12 / 3 ∧
        (resizeFit bmp17x10 5 3).height = 12 / 3 * bmp17x10.height / bmp17x10.width)) :=
  ⟨⟨by decide, by decide, rfl⟩,
    resize_dims_characterization bmp17x10 ⟨12, 6⟩ (resizeFit bmp17x10 5 3)
      (by decide) (by decide) rfl⟩

/-- C4: at the first failing frame the stream loop panics through
`.unwrap()` (modelled as the `aborted` outcome) instead of returning the
error: with resize enabled on a (2, 10) terminal the first frame's render
fails with `TerminalTooSmall`, playback stops at frame 0 with no sleep,
and `print_stream` never returns the error value to its caller. -/
theorem stream_first_failure_panics :
    print_stream [bmp4x4] argsResize ⟨2, 10⟩ = .aborted .terminalTooSmall 0 0 := rfl

/-- C5 counterexample: a single-frame sequence through the playback loop
sleeps once, not zero times. -/
theorem single_frame_sleeps_once :
    print_stream [white3x1] argsPlain ⟨80, 24⟩ = .ok 1 1 ∧
      sleepCount (print_stream [white3x1] argsPlain ⟨80, 24⟩) ≠ 0 := by
  refine ⟨rfl, by decide⟩

/-- C5 amended: a single-frame sequence without looping renders exactly
one frame and sleeps exactly once — the inter-frame delay follows every
frame, the last included; only the still-image path, which bypasses the
loop entirely, never sleeps. -/
theorem single_frame_renders_once_sleeps_once (f : Bitmap) (args : Args) (g : Geom)
    (h : isOkB (print_img f args g) = true) :
    print_stream [f] args g = .ok 1 1 := by
  cases hok : print_img f args g with
  | error e => simp [isOkB, hok] at h
  | ok cs => simp [print_stream, streamLoop, hok]

/-- Witness for the amended C5 on the 3×1 white bitmap. -/
theorem single_frame_renders_once_sleeps_once_witness :
    isOkB (print_img white3x1 argsPlain ⟨80, 24⟩) = true ∧
      print_stream [white3x1] argsPlain ⟨80, 24⟩ = .ok 1 1 :=
  ⟨rfl, single_frame_renders_once_sleeps_once white3x1 argsPlain ⟨80, 24⟩ rfl⟩

/-- C6 counterexample: the 3×1 all-white bitmap renders to nine block
characters and a newline — each of its three pixels emits a three-column
glyph — not to the claimed single glyph. -/
theorem white_3x1_output_ne_one_glyph :
    outText (print_img white3x1 argsPlain ⟨80, 24⟩) ≠ "███\n" := by
  decide

/-- C6 amended: with colorize and block-character mode off, the 3×1
all-white bitmap renders as nine block characters and a newline (three
three-column glyphs, one per pixel), and the 3×1 all-black bitmap as nine
spaces and a newline. -/
theorem white_black_3x1_outputs :
    outText (print_img white3x1 argsPlain ⟨80, 24⟩) = "█████████\n" ∧
      outText (print_img black3x1 argsPlain ⟨80, 24⟩) = "         \n" :=
  ⟨rfl, rfl⟩

lemma optSeq_isSome {α β : Type} (f : α → Option β) (l : List α)
    (h : ∀ a ∈ l, (f a).isSome = true) : (optSeq f l).isSome = true := by
  induction l with
  | nil => rfl
  | cons a t ih =>
    have ha := h a (List.mem_cons_self a t)
    have ht := ih (fun x hx => h x (List.mem_cons_of_mem a hx))
    cases hfa : f a with
    | none => rw [hfa] at ha; exact absurd ha (by simp)
    | some b =>
      cases hseq : optSeq f t with
      | none => rw [hseq] at ht; exact absurd ht (by simp)
      | some bs => simp [optSeq, hfa, hseq]

lemma pixelValue_lt_16 (r g b : Nat) (hr : r < 256) (hg : g < 256) (hb : b < 256) :
    pixelValue r g b < 16 := by
  have h0 : pixelValue r g b = (r + g + b) / 3 / 16 % 256 := rfl
  rw [h0]
  omega

lemma heatMap_get_isSome (v : Nat) (hv : v < 16) : (HEAT_MAP.get? v).isSome = true := by
  have h : ∀ w : Nat, w < 16 → (HEAT_MAP.get? w).isSome = true := by decide
  exact h v hv

lemma mkCell_isSome (args : Args) (p : PV) (hv : p.v < 16) :
    (mkCell args p).isSome = true := by
  unfold mkCell
  rw [Option.isSome_map']
  cases hb : args.block_character with
  | true => rfl
  | false =>
    simp only [Bool.false_eq_true, if_false]
    exact heatMap_get_isSome p.v hv

/-- C10: rendering never indexes out of bounds — for every bitmap whose
pixel list has the advertised `width * height` length and 8-bit channels,
every `HEAT_MAP[index]` and `pixels_with_value[j]` access is in range, so
`renderCells` always succeeds and the panic branch is unreachable. -/
theorem render_never_out_of_bounds (img : Bitmap) (args : Args)
    (hlen : img.pixels.length = img.width * img.height)
    (hpx : ∀ p ∈ img.pixels, p.1 < 256 ∧ p.2.1 < 256 ∧ p.2.2 < 256) :
    (renderCells img args).isSome = true := by
  simp only [renderCells, Option.isSome_map']
  apply optSeq_isSome
  intro i hi
  rw [Option.isSome_map']
  apply optSeq_isSome
  intro j hj
  have hi2 : i < img.height := List.mem_range.mp hi
  have hj2 : j < img.width := List.mem_range.mp hj
  have hpvlen : (pixelsWithValue img).length = img.width * img.height := by
    simp [pixelsWithValue, hlen]
  have hidx : i * img.width + j < (pixelsWithValue img).length := by
    rw [hpvlen]
    have h1 : i * img.width + j < (i + 1) * img.width := by
      rw [Nat.succ_mul]; omega
    have h2 : (i + 1) * img.width ≤ img.height * img.width :=
      Nat.mul_le_mul_right _ hi2
    rw [Nat.mul_comm img.height img.width] at h2
    omega
  cases hget : (pixelsWithValue img).get? (i * img.width + j) with
  | none =>
    rw [List.get?_eq_none] at hget
    omega
  | some p =>
    show (mkCell args p).isSome = true
    have hmem : p ∈ pixelsWithValue img := List.get?_mem hget
    obtain ⟨q, hq, hqe⟩ := List.mem_map.mp hmem
    have hv : p.v < 16 := by
      rw [← hqe]
      exact pixelValue_lt_16 q.1 q.2.1 q.2.2 (hpx q hq).1 (hpx q hq).2.1 (hpx q hq).2.2
    exact mkCell_isSome args p hv

/-- Witness for C10 on a 1×1 bitmap. -/
theorem render_never_out_of_bounds_witness :
    (bmp1x1.pixels.length = bmp1x1.width * bmp1x1.height ∧
      ∀ p ∈ bmp1x1.pixels, p.1 < 256 ∧ p.2.1 < 256 ∧ p.2.2 < 256) ∧
      (renderCells bmp1x1 argsPlain).isSome = true :=
  ⟨⟨rfl, by decide⟩, render_never_out_of_bounds bmp1x1 argsPlain rfl (by decide)⟩
